import Mathlib

/-!
# Verification of the bfx-hf-data-server connection/routing core

Shallow embedding of `src/lib/server.js` (the `DataServer` class): the client
registry (`wssClients`), the proxy registry (`bfxProxies`), command dispatch
(`COMMANDS` / `onWSMessage`), the connect/disconnect lifecycle handlers and the
upstream-proxy event listeners installed by `openBFXProxy`.

JavaScript objects keyed by client id are modelled as association lists over
`Nat` keys; the platform JSON codec (`JSON.parse` / `JSON.stringify`) is
modelled as an injective coding on a JSON value type with an explicit
constructor for malformed input text.
-/

set_option linter.unusedVariables false

namespace DataServer

/-- JSON-representable values (the payloads carried on the wire). Numbers are
restricted to integers, which is what the codec-representable frames in this
code base carry. -/
inductive Jv where
  | null : Jv
  | bool : Bool → Jv
  | num : Int → Jv
  | str : String → Jv
  | arr : List Jv → Jv
  | obj : List (String × Jv) → Jv

/-- A raw text frame on the wire. `JSON.parse` / `JSON.stringify` are platform
built-ins (not part of this repository); they are modelled as an injective
coding: `frame v` is a text frame that parses to the value `v`, and
`malformed s` is a text frame rejected by the parser. -/
inductive RawFrame where
  | malformed : String → RawFrame
  | frame : Jv → RawFrame

/-- `JSON.parse` wrapped in the handler's try/catch: `none` when parsing threw. -/
def jsonParse : RawFrame → Option Jv
  | .malformed _ => none
  | .frame v => some v

/-- `JSON.stringify` on an in-memory JSON value (total for codec-representable
values). -/
def jsonStringify (v : Jv) : RawFrame := .frame v

mutual

/-- `Array.prototype.join` with separator "," as invoked by
`Array.prototype.toString`: elements are joined by "," after rendering each
one with `jvElemKey`. -/
def jvArrKey : List Jv → String
  | [] => ""
  | [x] => jvElemKey x
  | x :: y :: rest => jvElemKey x ++ "," ++ jvArrKey (y :: rest)

/-- How `Array.prototype.join` renders one element: `null` renders as the
empty string, nested arrays are recursively joined, other values take their
JavaScript `ToString` form. -/
def jvElemKey : Jv → String
  | .null => ""
  | .bool b => cond b "true" "false"
  | .num n => toString n
  | .str s => s
  | .obj _ => "[object Object]"
  | .arr ys => jvArrKey ys

end

/-- JavaScript `ToString` on a JSON value, as used implicitly when a value is
used as a property key (`COMMANDS[cmd]`): strings unchanged, numbers and
booleans via their string form, `null` to "null", arrays via
`Array.prototype.toString` (comma-join), plain objects to "[object Object]". -/
def jvToKey : Jv → String
  | .null => "null"
  | .bool b => cond b "true" "false"
  | .num n => toString n
  | .str s => s
  | .obj _ => "[object Object]"
  | .arr xs => jvArrKey xs

/-- JavaScript `ToPropertyKey` for `COMMANDS[cmd]`, where `cmd` may be
`undefined` (modelled as `none`) when the decoded array is empty
(`const [ cmd ] = msg`). -/
def cmdKey : Option Jv → String
  | none => "undefined"
  | some v => jvToKey v

/-- The own property names of the `COMMANDS` object literal
(src/lib/server.js lines 19-27). The handler values themselves live in
`./cmds/*` and are external to the routing core. -/
def COMMANDS : List String :=
  ["exec.bt", "get.bts", "get.markets", "get.candles", "get.trades",
   "submit.bt", "bfx"]

/-- Function-valued properties inherited by an object literal from
`Object.prototype` (visible to a raw `COMMANDS[cmd]` property access). -/
def objectPrototypeFnProps : List String :=
  ["constructor", "hasOwnProperty", "isPrototypeOf", "propertyIsEnumerable",
   "toLocaleString", "toString", "valueOf",
   "__defineGetter__", "__defineSetter__", "__lookupGetter__",
   "__lookupSetter__"]

/-- Result of the raw property access `COMMANDS[cmd]`. -/
inductive PropValue where
  | handlerFn : String → PropValue
  /-- a function inherited from `Object.prototype` -/
  | inheritedFn : String → PropValue
  /-- the `__proto__` accessor yields `Object.prototype`, a non-function object -/
  | inheritedObj : PropValue
  | undefinedProp : PropValue
deriving DecidableEq

/-- The raw property access `COMMANDS[key]`: own properties first, then the
prototype chain (`Object.prototype`), else `undefined`. -/
def commandsGet (key : String) : PropValue :=
  if key ∈ COMMANDS then .handlerFn key
  else if key ∈ objectPrototypeFnProps then .inheritedFn key
  else if key = "__proto__" then .inheritedObj
  else .undefinedProp

/-- `_isFunction(handler)` (lodash). -/
def isFunctionProp : PropValue → Bool
  | .handlerFn _ => true
  | .inheritedFn _ => true
  | .inheritedObj => false
  | .undefinedProp => false

/-! ## JavaScript objects keyed by client id

`this.wssClients` and `this.bfxProxies` are plain objects keyed by the numeric
client id; they are modelled as association lists over `Nat` keys. `objGet`
is property read (`undefined` as `none`), `objSet` is property assignment,
`objDel` is the `delete` operator. -/

/-- Property read `o[k]`: `none` models `undefined`. -/
def objGet {α : Type} (m : List (Nat × α)) (k : Nat) : Option α :=
  match m.find? (fun e => e.1 == k) with
  | some e => some e.2
  | none => none

/-- Property assignment `o[k] = v` (replaces an existing binding in place,
otherwise appends a new one). -/
def objSet {α : Type} (m : List (Nat × α)) (k : Nat) (v : α) : List (Nat × α) :=
  match m with
  | [] => [(k, v)]
  | e :: rest => if e.1 == k then (k, v) :: rest else e :: objSet rest k v

/-- The `delete o[k]` operator (a no-op on an absent key). -/
def objDel {α : Type} (m : List (Nat × α)) (k : Nat) : List (Nat × α) :=
  m.filter (fun e => e.1 != k)

/-- The keys of a registry object. -/
def objKeys {α : Type} (m : List (Nat × α)) : List Nat :=
  m.map (fun e => e.1)

/-! ## Connections, proxy sessions and server state -/

/-- A downstream `ws` connection handle. `readyState` follows the ws library
encoding (0 CONNECTING, 1 OPEN, 2 CLOSING, 3 CLOSED); `sent` records the text
frames transmitted to this client, oldest first. -/
structure WsConn where
  readyState : Nat
  sent : List RawFrame

/-- The upstream `WSv2` session object, as visible to this server: which
client owns it and how many times the server called `open()`, `auth()` and
`close()` on it. The `WSv2` internals are external to this repository. -/
structure BfxProxy where
  ownerID : Nat
  openCalls : Nat
  authCalls : Nat
  closeCalls : Nat

/-- The `bfxProxyParams` record built by the constructor. -/
structure BfxProxyParams where
  url : Option String
  apiKey : Option String
  apiSecret : Option String
  transform : Bool
  agent : Option String

/-- JavaScript truthiness of an optional string option (`undefined` and the
empty string are falsy). -/
def truthyStr : Option String → Bool
  | none => false
  | some s => !s.isEmpty

/-- The mutable state of a `DataServer` instance.

`nonceCounter` models the `nonce()` source from `bfx-api-node-util`.
Modelled from the spec: `nonce` is not part of this repository; the spec
describes ClientID as "a process-unique, monotonically distinguishing value
generated at connection-accept time", so it is modelled as a monotone
counter. -/
structure ServerState where
  wssClients : List (Nat × WsConn)
  bfxProxies : List (Nat × BfxProxy)
  bfxProxyEnabled : Bool
  bfxProxyParams : BfxProxyParams
  nonceCounter : Nat
  listening : Bool

/-- The constructor: empty registries, proxy flag and params recorded, the
listening websocket server opened on the configured port. -/
def initState (params : BfxProxyParams) (proxy : Bool) : ServerState :=
  { wssClients := []
    bfxProxies := []
    bfxProxyEnabled := proxy
    bfxProxyParams := params
    nonceCounter := 0
    listening := true }

/-- Modelled from the spec: `send` (required from `./wss/send`, whose source
is not under src/) "serializes outbound events into frames" and transmits
them, a frame being "a structured ordered sequence serialized as text"; so it
stringifies the given ordered sequence and appends it to the client's
transmitted frames. -/
def send (ws : WsConn) (payload : List Jv) : WsConn :=
  { ws with sent := ws.sent ++ [jsonStringify (.arr payload)] }

/-- `ws.send(JSON.stringify(...))` as performed directly by the proxy message
listener. -/
def wsSendRaw (ws : WsConn) (f : RawFrame) : WsConn :=
  { ws with sent := ws.sent ++ [f] }

/-- Update the registered connection object of one client in place (JavaScript
aliasing: the handler mutates the same object the registry refers to). -/
def updateClient (s : ServerState) (clientID : Nat) (ws : WsConn) : ServerState :=
  { s with wssClients := objSet s.wssClients clientID ws }

/-! ## The upstream proxy session (`openBFXProxy` and its listeners) -/

/-- Observable actions performed by the lifecycle handlers, in program order. -/
inductive Act where
  | registerClient : Nat → Act
  | registerProxy : Nat → Act
  | unregisterClient : Nat → Act
  | closeProxy : Nat → Act
  | removeProxy : Nat → Act
  | closeListeningSocket : Act
deriving DecidableEq

/-- A JavaScript runtime exception escaping a handler. -/
inductive JsError where
  | typeError : String → JsError
deriving DecidableEq

/-- `openBFXProxy(clientID)` minus its listener registrations: constructs a
fresh `WSv2` session, calls `proxy.open()` on it and returns it. The
listeners it installs are modelled by `onBFXProxyMessage` and
`onBFXProxyOpenOnce` below, invoked by the event layer. -/
def openBFXProxy (clientID : Nat) : BfxProxy :=
  { ownerID := clientID, openCalls := 1, authCalls := 0, closeCalls := 0 }

/-- The `proxy.on('message', ...)` listener: reads
`this.wssClients[clientID]`, then reads `.readyState` on the result — which
throws a TypeError when the client is no longer registered (the read yields
`undefined`) — returns without sending when the transport is not OPEN, and
otherwise sends `JSON.stringify(['bfx', msg])` to the client. -/
def onBFXProxyMessage (s : ServerState) (clientID : Nat) (msg : Jv) :
    Except JsError ServerState :=
  match objGet s.wssClients clientID with
  | none =>
    .error (.typeError "Cannot read properties of undefined (reading readyState)")
  | some ws =>
    if ws.readyState != 1 then .ok s
    else .ok (updateClient s clientID
      (wsSendRaw ws (jsonStringify (.arr [.str "bfx", msg]))))

/-- The `proxy.once('open', ...)` listener: calls `proxy.auth()` exactly when
both `apiKey` and `apiSecret` are truthy. -/
def onBFXProxyOpenOnce (params : BfxProxyParams) (p : BfxProxy) : BfxProxy :=
  if truthyStr params.apiKey && truthyStr params.apiSecret then
    { p with authCalls := p.authCalls + 1 }
  else p

/-! ## Lifecycle handlers -/

/-- `onWSConnected(ws)`: generate a fresh client id with `nonce()`, register
the connection in `wssClients`, open and register a bfx proxy when proxying
is enabled, and send the `['connected']` frame to the new client. Returns the
new state, the generated client id and the action trace in program order. -/
def onWSConnected (s : ServerState) (ws : WsConn) : ServerState × Nat × List Act :=
  let clientID := s.nonceCounter
  let proxies :=
    if s.bfxProxyEnabled then objSet s.bfxProxies clientID (openBFXProxy clientID)
    else s.bfxProxies
  let acts :=
    if s.bfxProxyEnabled then [Act.registerClient clientID, Act.registerProxy clientID]
    else [Act.registerClient clientID]
  ({ s with
      nonceCounter := clientID + 1
      wssClients := objSet s.wssClients clientID (send ws [.str "connected"])
      bfxProxies := proxies },
   clientID, acts)

/-- `onWSDisconnected(clientID)`: `delete this.wssClients[clientID]`, then, if
`this.bfxProxies[clientID]` is truthy, call `.close()` on it and delete it
from `bfxProxies`. Returns the new state and the action trace in program
order. -/
def onWSDisconnected (s : ServerState) (clientID : Nat) : ServerState × List Act :=
  let s1 := { s with wssClients := objDel s.wssClients clientID }
  match objGet s1.bfxProxies clientID with
  | some _ =>
    ({ s1 with bfxProxies := objDel s1.bfxProxies clientID },
     [Act.unregisterClient clientID, Act.closeProxy clientID,
      Act.removeProxy clientID])
  | none => (s1, [Act.unregisterClient clientID])

/-- Outcome of `onWSMessage` on one inbound frame. -/
inductive MsgOutcome where
  /-- the frame failed to parse or did not parse to an array: logged, dropped -/
  | decodeLogged : MsgOutcome
  /-- `_isFunction(handler)` was false: "unknown command" logged, dropped -/
  | unknownLogged : MsgOutcome
  /-- `handler(this, ws, msg, clientID)` was invoked for this property key -/
  | handled : String → MsgOutcome
deriving DecidableEq

/-- `onWSMessage(clientID, msgJSON)`: parse the frame inside try/catch (a
parse failure leaves `msg` undefined), drop non-arrays with a log, look the
first element up in `COMMANDS` by raw property access, drop with an "unknown
command" log when the lookup is not a function, and otherwise invoke the
handler. The dispatcher itself mutates no state; handler bodies are external
to the routing core (`./cmds/*`). -/
def onWSMessage (s : ServerState) (clientID : Nat) (msgJSON : RawFrame) :
    ServerState × MsgOutcome :=
  match jsonParse msgJSON with
  | some (.arr elems) =>
    let key := cmdKey elems.head?
    let handler := commandsGet key
    if isFunctionProp handler then (s, .handled key)
    else (s, .unknownLogged)
  | _ => (s, .decodeLogged)

/-- `close()`: closes the listening websocket server and nothing else. -/
def close (s : ServerState) : ServerState × List Act :=
  ({ s with listening := false }, [Act.closeListeningSocket])

/-! ## The connect/disconnect event machine -/

/-- External lifecycle events delivered by the transport: a new downstream
connection accepted, or the ws `'close'` event for a given client. -/
inductive Ev where
  | connect : Ev
  | disconnect : Nat → Ev

/-- A freshly accepted downstream connection: transport OPEN, nothing sent. -/
def freshConn : WsConn := { readyState := 1, sent := [] }

/-- Process one lifecycle event. -/
def stepServer (s : ServerState) : Ev → ServerState × List Act
  | .connect =>
    let r := onWSConnected s freshConn
    (r.1, r.2.2)
  | .disconnect clientID => onWSDisconnected s clientID

/-- Process a list of lifecycle events, concatenating the action traces. -/
def runServer (s : ServerState) : List Ev → ServerState × List Act
  | [] => (s, [])
  | e :: rest =>
    let r1 := stepServer s e
    let r2 := runServer r1.1 rest
    (r2.1, r1.2 ++ r2.2)

/-- Is this action `closeProxy sid`? -/
def isCloseOf (sid : Nat) : Act → Bool
  | .closeProxy id => id == sid
  | _ => false

/-- How many times the trace closes the proxy session owned by `sid`. -/
def countClose (tr : List Act) (sid : Nat) : Nat :=
  tr.countP (isCloseOf sid)

/-! ## Association-list lemmas -/

theorem objGet_nil {α : Type} (k : Nat) : objGet ([] : List (Nat × α)) k = none := rfl

theorem objGet_cons {α : Type} (e : Nat × α) (rest : List (Nat × α)) (k : Nat) :
    objGet (e :: rest) k = if e.1 = k then some e.2 else objGet rest k := by
  simp only [objGet]
  by_cases h : e.1 = k
  · rw [List.find?_cons_of_pos _ (by simpa using h), if_pos h]
  · rw [List.find?_cons_of_neg _ (by simpa using h), if_neg h]

theorem objGet_set_self {α : Type} (m : List (Nat × α)) (k : Nat) (v : α) :
    objGet (objSet m k v) k = some v := by
  induction m with
  | nil => simp [objSet, objGet_cons]
  | cons e rest ih =>
    by_cases h : e.1 = k
    · simp [objSet, h, objGet_cons]
    · simp [objSet, h, objGet_cons, ih]

theorem objGet_set_ne {α : Type} (m : List (Nat × α)) (k k' : Nat) (v : α)
    (h : k' ≠ k) : objGet (objSet m k v) k' = objGet m k' := by
  induction m with
  | nil => simp [objSet, objGet_cons, objGet_nil, Ne.symm h]
  | cons e rest ih =>
    by_cases he : e.1 = k
    · subst he
      simp [objSet, objGet_cons, Ne.symm h]
    · simp [objSet, he, objGet_cons, ih]

theorem objGet_del_self {α : Type} (m : List (Nat × α)) (k : Nat) :
    objGet (objDel m k) k = none := by
  induction m with
  | nil => rfl
  | cons e rest ih =>
    by_cases h : e.1 = k
    · simpa [objDel, h] using ih
    · simpa [objDel, h, objGet_cons] using ih

theorem objDel_cons_self {α : Type} (e : Nat × α) (rest : List (Nat × α))
    (k : Nat) (he : e.1 = k) : objDel (e :: rest) k = objDel rest k := by
  simp [objDel, List.filter_cons, he]

theorem objDel_cons_ne {α : Type} (e : Nat × α) (rest : List (Nat × α))
    (k : Nat) (he : ¬ e.1 = k) : objDel (e :: rest) k = e :: objDel rest k := by
  simp [objDel, List.filter_cons, he]

theorem objGet_del_ne {α : Type} (m : List (Nat × α)) (k k' : Nat)
    (h : k' ≠ k) : objGet (objDel m k) k' = objGet m k' := by
  induction m with
  | nil => rfl
  | cons e rest ih =>
    by_cases he : e.1 = k
    · rw [objDel_cons_self e rest k he, ih, objGet_cons,
        if_neg (fun hh => h (by rw [← hh, he]))]
    · rw [objDel_cons_ne e rest k he, objGet_cons, objGet_cons, ih]

theorem isSome_objGet_iff_mem {α : Type} (m : List (Nat × α)) (k : Nat) :
    (objGet m k).isSome = true ↔ k ∈ objKeys m := by
  induction m with
  | nil => simp [objGet_nil, objKeys]
  | cons e rest ih =>
    rw [objGet_cons]
    by_cases h : e.1 = k
    · simp [h, objKeys]
    · rw [if_neg h]
      simp only [objKeys, List.map_cons, List.mem_cons] at ih ⊢
      rw [ih]
      constructor
      · exact fun hm => Or.inr hm
      · rintro (hk | hm)
        · exact absurd hk.symm h
        · exact hm

theorem objKeys_set_of_not_mem {α : Type} (m : List (Nat × α)) (k : Nat) (v : α)
    (h : k ∉ objKeys m) : objKeys (objSet m k v) = objKeys m ++ [k] := by
  induction m with
  | nil => simp [objSet, objKeys]
  | cons e rest ih =>
    simp only [objKeys, List.map_cons, List.mem_cons, not_or] at h
    have hne : ¬ e.1 = k := fun hh => h.1 hh.symm
    have hset : objSet (e :: rest) k v = e :: objSet rest k v := by
      simp [objSet, hne]
    rw [hset]
    simp only [objKeys, List.map_cons, List.cons_append]
    congr 1
    exact ih h.2

theorem objKeys_del {α : Type} (m : List (Nat × α)) (k : Nat) :
    objKeys (objDel m k) = (objKeys m).filter (fun x => x != k) := by
  induction m with
  | nil => rfl
  | cons e rest ih =>
    by_cases h : e.1 = k
    · rw [objDel_cons_self e rest k h, ih]
      simp [objKeys, List.filter_cons, h]
    · rw [objDel_cons_ne e rest k h]
      simp only [objKeys, List.map_cons, List.filter_cons] at ih ⊢
      rw [ih]
      simp [h]

theorem nodup_objKeys_del {α : Type} (m : List (Nat × α)) (k : Nat)
    (h : (objKeys m).Nodup) : (objKeys (objDel m k)).Nodup := by
  rw [objKeys_del]
  exact h.filter _

theorem objGet_mem_of_eq_some {α : Type} (m : List (Nat × α)) (k : Nat) (v : α)
    (h : objGet m k = some v) : (k, v) ∈ m := by
  induction m with
  | nil => simp [objGet_nil] at h
  | cons e rest ih =>
    rw [objGet_cons] at h
    by_cases he : e.1 = k
    · rw [if_pos he] at h
      rw [List.mem_cons]
      refine Or.inl ?_
      cases e with
      | mk a b =>
        simp only at he
        simp only [Option.some.injEq] at h
        simp [he, h]
    · rw [if_neg he] at h
      exact List.mem_cons_of_mem _ (ih h)

theorem mem_objKeys_del {α : Type} (m : List (Nat × α)) (k sid : Nat)
    (h : sid ∈ objKeys (objDel m k)) : sid ∈ objKeys m ∧ sid ≠ k := by
  rw [objKeys_del] at h
  simp only [List.mem_filter, bne_iff_ne, ne_eq, decide_eq_true_eq] at h
  exact h

theorem nodup_append_singleton {l : List Nat} {n : Nat} (h : l.Nodup)
    (hn : n ∉ l) : (l ++ [n]).Nodup := by
  simp [List.nodup_append, h, hn]

/-! ## Trace counting lemmas -/

theorem countClose_nil (sid : Nat) : countClose [] sid = 0 := rfl

theorem countClose_append (a b : List Act) (sid : Nat) :
    countClose (a ++ b) sid = countClose a sid + countClose b sid := by
  simp [countClose, List.countP_append]

theorem countClose_connect_acts (s : ServerState) (ws : WsConn) (sid : Nat) :
    countClose (onWSConnected s ws).2.2 sid = 0 := by
  by_cases h : s.bfxProxyEnabled <;>
    simp [onWSConnected, h, countClose, List.countP_cons, isCloseOf]

theorem onWSDisconnected_acts_of_proxy (s : ServerState) (id : Nat)
    (p : BfxProxy) (hp : objGet s.bfxProxies id = some p) :
    (onWSDisconnected s id).2 =
      [Act.unregisterClient id, Act.closeProxy id, Act.removeProxy id] := by
  simp [onWSDisconnected, hp]

theorem onWSDisconnected_acts_of_no_proxy (s : ServerState) (id : Nat)
    (hp : objGet s.bfxProxies id = none) :
    (onWSDisconnected s id).2 = [Act.unregisterClient id] := by
  simp [onWSDisconnected, hp]

theorem countClose_teardown (id sid : Nat) :
    countClose [Act.unregisterClient id, Act.closeProxy id, Act.removeProxy id]
      sid = if id = sid then 1 else 0 := by
  by_cases h : id = sid <;>
    simp [countClose, List.countP_cons, isCloseOf, h]

theorem countClose_unregister_only (id sid : Nat) :
    countClose [Act.unregisterClient id] sid = 0 := by
  simp [countClose, List.countP_cons, isCloseOf]

/-! ## The registry/trace invariant (claim C2) -/

/-- Invariant of reachable server states: the proxy registry tracks the client
registry when proxying is enabled (and stays empty otherwise), registry keys
are duplicate-free and below the nonce counter, and each registered session
records its owner. -/
structure RegInv (s : ServerState) : Prop where
  domEq : ∀ id : Nat, s.bfxProxyEnabled = true →
    ((objGet s.bfxProxies id).isSome = true ↔ (objGet s.wssClients id).isSome = true)
  proxiesEmptyOfDisabled : s.bfxProxyEnabled = false → s.bfxProxies = []
  nodupClients : (objKeys s.wssClients).Nodup
  nodupProxies : (objKeys s.bfxProxies).Nodup
  freshClients : ∀ id ∈ objKeys s.wssClients, id < s.nonceCounter
  freshProxies : ∀ id ∈ objKeys s.bfxProxies, id < s.nonceCounter
  owner : ∀ id p, objGet s.bfxProxies id = some p → p.ownerID = id

/-- Invariant tying a reachable state to the action trace that produced it:
live sessions have never been closed, no session is closed twice, and every
session ever closed had an id below the nonce counter. -/
structure TraceInv (s : ServerState) (tr : List Act) : Prop where
  liveNotClosed : ∀ sid ∈ objKeys s.bfxProxies, countClose tr sid = 0
  closeAtMostOne : ∀ sid : Nat, countClose tr sid ≤ 1
  closedLtNonce : ∀ sid : Nat, 1 ≤ countClose tr sid → sid < s.nonceCounter

/-- The combined reachability invariant. -/
def Inv (s : ServerState) (tr : List Act) : Prop := RegInv s ∧ TraceInv s tr

theorem inv_init (params : BfxProxyParams) (proxy : Bool) :
    Inv (initState params proxy) [] := by
  refine ⟨⟨?_, ?_, ?_, ?_, ?_, ?_, ?_⟩, ⟨?_, ?_, ?_⟩⟩ <;>
    simp [initState, objGet_nil, objKeys, countClose_nil]

theorem onWSConnected_state (s : ServerState) (ws : WsConn) :
    (onWSConnected s ws).1 =
      { s with
          nonceCounter := s.nonceCounter + 1
          wssClients := objSet s.wssClients s.nonceCounter
            (send ws [.str "connected"])
          bfxProxies :=
            if s.bfxProxyEnabled then
              objSet s.bfxProxies s.nonceCounter (openBFXProxy s.nonceCounter)
            else s.bfxProxies } := rfl

theorem onWSDisconnected_state_of_proxy (s : ServerState) (id : Nat)
    (p : BfxProxy) (hp : objGet s.bfxProxies id = some p) :
    (onWSDisconnected s id).1 =
      { s with
          wssClients := objDel s.wssClients id
          bfxProxies := objDel s.bfxProxies id } := by
  simp [onWSDisconnected, hp]

theorem onWSDisconnected_state_of_no_proxy (s : ServerState) (id : Nat)
    (hp : objGet s.bfxProxies id = none) :
    (onWSDisconnected s id).1 =
      { s with wssClients := objDel s.wssClients id } := by
  simp [onWSDisconnected, hp]

theorem inv_step (s : ServerState) (tr : List Act) (e : Ev) (h : Inv s tr) :
    Inv (stepServer s e).1 (tr ++ (stepServer s e).2) := by
  obtain ⟨hr, ht⟩ := h
  cases e with
  | connect =>
    have hfc : s.nonceCounter ∉ objKeys s.wssClients :=
      fun hm => absurd (hr.freshClients _ hm) (lt_irrefl _)
    have hfp : s.nonceCounter ∉ objKeys s.bfxProxies :=
      fun hm => absurd (hr.freshProxies _ hm) (lt_irrefl _)
    have hctz : countClose tr s.nonceCounter = 0 := by
      by_contra hne
      exact absurd (ht.closedLtNonce s.nonceCounter (by omega)) (lt_irrefl _)
    have htrz : ∀ sid : Nat,
        countClose (tr ++ (stepServer s .connect).2) sid = countClose tr sid := by
      intro sid
      rw [countClose_append]
      have hz := countClose_connect_acts s freshConn sid
      simp only [stepServer]
      omega
    rw [show (stepServer s .connect).1 = (onWSConnected s freshConn).1 from rfl,
      onWSConnected_state]
    constructor
    · refine ⟨?_, ?_, ?_, ?_, ?_, ?_, ?_⟩
      · intro id hen
        dsimp only at hen ⊢
        rw [if_pos hen]
        by_cases hid : id = s.nonceCounter
        · subst hid
          simp [objGet_set_self]
        · rw [objGet_set_ne _ _ _ _ hid, objGet_set_ne _ _ _ _ hid]
          exact hr.domEq id hen
      · intro hdis
        dsimp only at hdis ⊢
        rw [if_neg (by simp [hdis])]
        exact hr.proxiesEmptyOfDisabled hdis
      · dsimp only
        rw [objKeys_set_of_not_mem _ _ _ hfc]
        exact nodup_append_singleton hr.nodupClients hfc
      · dsimp only
        by_cases hen : s.bfxProxyEnabled
        · rw [if_pos hen, objKeys_set_of_not_mem _ _ _ hfp]
          exact nodup_append_singleton hr.nodupProxies hfp
        · rw [if_neg hen]
          exact hr.nodupProxies
      · intro id hm
        dsimp only at hm ⊢
        rw [objKeys_set_of_not_mem _ _ _ hfc] at hm
        rcases List.mem_append.mp hm with hm | hm
        · exact Nat.lt_succ_of_lt (hr.freshClients id hm)
        · simp only [List.mem_singleton] at hm
          omega
      · intro id hm
        dsimp only at hm ⊢
        by_cases hen : s.bfxProxyEnabled
        · rw [if_pos hen, objKeys_set_of_not_mem _ _ _ hfp] at hm
          rcases List.mem_append.mp hm with hm | hm
          · exact Nat.lt_succ_of_lt (hr.freshProxies id hm)
          · simp only [List.mem_singleton] at hm
            omega
        · rw [if_neg hen] at hm
          exact Nat.lt_succ_of_lt (hr.freshProxies id hm)
      · intro id p hp
        dsimp only at hp
        by_cases hen : s.bfxProxyEnabled
        · rw [if_pos hen] at hp
          by_cases hid : id = s.nonceCounter
          · subst hid
            rw [objGet_set_self] at hp
            cases hp
            rfl
          · rw [objGet_set_ne _ _ _ _ hid] at hp
            exact hr.owner id p hp
        · rw [if_neg hen] at hp
          exact hr.owner id p hp
    · refine ⟨?_, ?_, ?_⟩
      · intro sid hm
        rw [htrz]
        dsimp only at hm
        by_cases hen : s.bfxProxyEnabled
        · rw [if_pos hen, objKeys_set_of_not_mem _ _ _ hfp] at hm
          rcases List.mem_append.mp hm with hm | hm
          · exact ht.liveNotClosed sid hm
          · simp only [List.mem_singleton] at hm
            subst hm
            exact hctz
        · rw [if_neg hen] at hm
          exact ht.liveNotClosed sid hm
      · intro sid
        rw [htrz]
        exact ht.closeAtMostOne sid
      · intro sid hge
        rw [htrz] at hge
        dsimp only
        exact Nat.lt_succ_of_lt (ht.closedLtNonce sid hge)
  | disconnect id =>
    cases hp : objGet s.bfxProxies id with
    | some p =>
      have hmemP : id ∈ objKeys s.bfxProxies :=
        (isSome_objGet_iff_mem _ _).mp (by rw [hp]; rfl)
      have hacts : (stepServer s (.disconnect id)).2 =
          [Act.unregisterClient id, Act.closeProxy id, Act.removeProxy id] :=
        onWSDisconnected_acts_of_proxy s id p hp
      have hct : ∀ sid : Nat,
          countClose (tr ++ (stepServer s (.disconnect id)).2) sid
            = countClose tr sid + (if id = sid then 1 else 0) := by
        intro sid
        rw [countClose_append, hacts, countClose_teardown]
      rw [show (stepServer s (.disconnect id)).1 = (onWSDisconnected s id).1
          from rfl,
        onWSDisconnected_state_of_proxy s id p hp]
      constructor
      · refine ⟨?_, ?_, ?_, ?_, ?_, ?_, ?_⟩
        · intro id' hen
          dsimp only at hen ⊢
          by_cases hid : id' = id
          · subst hid
            rw [objGet_del_self, objGet_del_self]
            exact Iff.rfl
          · rw [objGet_del_ne _ _ _ hid, objGet_del_ne _ _ _ hid]
            exact hr.domEq id' hen
        · intro hdis
          rw [hr.proxiesEmptyOfDisabled hdis] at hp
          exact absurd hp (by rw [objGet_nil]; simp)
        · exact nodup_objKeys_del _ _ hr.nodupClients
        · exact nodup_objKeys_del _ _ hr.nodupProxies
        · intro id' hm
          exact hr.freshClients id' (mem_objKeys_del _ _ _ hm).1
        · intro id' hm
          exact hr.freshProxies id' (mem_objKeys_del _ _ _ hm).1
        · intro id' p' hp'
          simp only at hp'
          by_cases hid : id' = id
          · subst hid
            rw [objGet_del_self] at hp'
            cases hp'
          · rw [objGet_del_ne _ _ _ hid] at hp'
            exact hr.owner id' p' hp'
      · refine ⟨?_, ?_, ?_⟩
        · intro sid hm
          simp only at hm
          obtain ⟨hmem, hne⟩ := mem_objKeys_del _ _ _ hm
          rw [hct]
          rw [if_neg (fun hh => hne hh.symm)]
          rw [ht.liveNotClosed sid hmem]
        · intro sid
          rw [hct]
          by_cases hid : id = sid
          · subst hid
            rw [ht.liveNotClosed id hmemP]
            simp
          · rw [if_neg hid]
            have := ht.closeAtMostOne sid
            omega
        · intro sid hge
          rw [hct] at hge
          by_cases hid : id = sid
          · subst hid
            exact hr.freshProxies id hmemP
          · rw [if_neg hid] at hge
            exact ht.closedLtNonce sid (by omega)
    | none =>
      have hacts : (stepServer s (.disconnect id)).2 = [Act.unregisterClient id] :=
        onWSDisconnected_acts_of_no_proxy s id hp
      have hct : ∀ sid : Nat,
          countClose (tr ++ (stepServer s (.disconnect id)).2) sid
            = countClose tr sid := by
        intro sid
        rw [countClose_append, hacts, countClose_unregister_only]
        omega
      rw [show (stepServer s (.disconnect id)).1 = (onWSDisconnected s id).1
          from rfl,
        onWSDisconnected_state_of_no_proxy s id hp]
      constructor
      · refine ⟨?_, ?_, ?_, ?_, ?_, ?_, ?_⟩
        · intro id' hen
          dsimp only at hen ⊢
          by_cases hid : id' = id
          · subst hid
            rw [objGet_del_self, hp]
            exact Iff.rfl
          · rw [objGet_del_ne _ _ _ hid]
            exact hr.domEq id' hen
        · exact hr.proxiesEmptyOfDisabled
        · exact nodup_objKeys_del _ _ hr.nodupClients
        · exact hr.nodupProxies
        · intro id' hm
          exact hr.freshClients id' (mem_objKeys_del _ _ _ hm).1
        · exact hr.freshProxies
        · exact hr.owner
      · refine ⟨?_, ?_, ?_⟩
        · intro sid hm
          rw [hct]
          exact ht.liveNotClosed sid hm
        · intro sid
          rw [hct]
          exact ht.closeAtMostOne sid
        · intro sid hge
          rw [hct] at hge
          exact ht.closedLtNonce sid hge

theorem inv_run (s : ServerState) (tr : List Act) (evs : List Ev)
    (h : Inv s tr) : Inv (runServer s evs).1 (tr ++ (runServer s evs).2) := by
  induction evs generalizing s tr with
  | nil => simpa [runServer] using h
  | cons e rest ih =>
    have h1 := inv_step s tr e h
    have h2 := ih (stepServer s e).1 (tr ++ (stepServer s e).2) h1
    simpa [runServer, List.append_assoc] using h2

theorem inv_reachable (params : BfxProxyParams) (proxy : Bool) (evs : List Ev) :
    Inv (runServer (initState params proxy) evs).1
      (runServer (initState params proxy) evs).2 := by
  have h := inv_run (initState params proxy) [] evs (inv_init params proxy)
  simpa using h

theorem stepServer_enabled (s : ServerState) (e : Ev) :
    (stepServer s e).1.bfxProxyEnabled = s.bfxProxyEnabled := by
  cases e with
  | connect => rfl
  | disconnect id =>
    cases hp : objGet s.bfxProxies id with
    | some p => rw [show (stepServer s (.disconnect id)).1 = _ from
        onWSDisconnected_state_of_proxy s id p hp]
    | none => rw [show (stepServer s (.disconnect id)).1 = _ from
        onWSDisconnected_state_of_no_proxy s id hp]

theorem runServer_enabled (s : ServerState) (evs : List Ev) :
    (runServer s evs).1.bfxProxyEnabled = s.bfxProxyEnabled := by
  induction evs generalizing s with
  | nil => rfl
  | cons e rest ih =>
    show (runServer (stepServer s e).1 rest).1.bfxProxyEnabled = _
    rw [ih, stepServer_enabled]

/-! ## Concrete configurations used by witnesses -/

/-- A configuration with no credentials. -/
def testParams : BfxProxyParams :=
  { url := none, apiKey := none, apiSecret := none, transform := false,
    agent := none }

/-- A configuration with both credentials set. -/
def credParams : BfxProxyParams :=
  { url := none, apiKey := some "key", apiSecret := some "secret",
    transform := false, agent := none }

/-- Credentials are configured: both `apiKey` and `apiSecret` are provided
and non-empty (an empty string option is falsy in the source's
`apiKey && apiSecret` test). -/
def credentialsConfigured (params : BfxProxyParams) : Prop :=
  ∃ k c : String, params.apiKey = some k ∧ k ≠ "" ∧
    params.apiSecret = some c ∧ c ≠ ""

theorem credentialsConfigured_iff (params : BfxProxyParams) :
    (truthyStr params.apiKey && truthyStr params.apiSecret) = true
      ↔ credentialsConfigured params := by
  cases hk : params.apiKey with
  | none => simp [truthyStr, credentialsConfigured, hk]
  | some k =>
    cases hc : params.apiSecret with
    | none => simp [truthyStr, credentialsConfigured, hk, hc]
    | some c =>
      have hiff : ∀ s : String, s.isEmpty = false ↔ ¬ s = "" := by
        intro s
        rw [← String.isEmpty_iff]
        cases s.isEmpty <;> simp
      simp [truthyStr, credentialsConfigured, hk, hc, hiff]

/-- The encoder used for outbound events: `JSON.stringify([tag, ...payload])`
(the shape of both the `['connected']` acknowledgement and the
`['bfx', msg]` relay frames). -/
def encodeEvent (tag : String) (payload : List Jv) : RawFrame :=
  jsonStringify (.arr (.str tag :: payload))

/-! ## The claims -/

/-- Claim C1 (code bug). The claim says an upstream proxy `message` event
whose owning client is absent from the client registry is silently dropped
with no exception. The code instead reads `.readyState` off the `undefined`
registry lookup and throws a TypeError. In the claim's own scenario — a
connect followed by a disconnect of client 0, then an in-flight upstream
message for client 0 — the message listener raises instead of dropping. -/
theorem c1_message_for_absent_client_throws :
    onBFXProxyMessage
        (runServer (initState testParams true) [Ev.connect, Ev.disconnect 0]).1
        0 (.str "tick")
      = .error (.typeError
          "Cannot read properties of undefined (reading readyState)") ∧
    objGet (runServer (initState testParams true)
        [Ev.connect, Ev.disconnect 0]).1.wssClients 0 = none := ⟨rfl, rfl⟩

/-- Claim C2. Starting from a server constructed with proxying enabled, after
any sequence of connect and disconnect events: a proxy session exists for a
client id if and only if that id is in the client registry; the proxy
registry holds at most one session per client (its keys are duplicate-free);
no session is ever closed more than once over the whole trace; and
disconnecting a client that has a proxy session closes it exactly once and
removes it from the proxy registry. -/
theorem c2_proxy_registry_invariant (params : BfxProxyParams) (evs : List Ev) :
    (∀ id : Nat,
      (objGet (runServer (initState params true) evs).1.bfxProxies id).isSome
          = true
        ↔ (objGet (runServer (initState params true) evs).1.wssClients
            id).isSome = true) ∧
    (objKeys (runServer (initState params true) evs).1.bfxProxies).Nodup ∧
    (∀ sid : Nat, countClose (runServer (initState params true) evs).2 sid ≤ 1) ∧
    (∀ id : Nat, ∀ p : BfxProxy,
      objGet (runServer (initState params true) evs).1.bfxProxies id = some p →
        countClose
            (onWSDisconnected (runServer (initState params true) evs).1 id).2 id
          = 1 ∧
        objGet (onWSDisconnected (runServer (initState params true) evs).1
            id).1.bfxProxies id = none) := by
  obtain ⟨hr, ht⟩ := inv_reachable params true evs
  refine ⟨?_, hr.nodupProxies, ht.closeAtMostOne, ?_⟩
  · intro id
    exact hr.domEq id (by rw [runServer_enabled]; rfl)
  · intro id p hp
    constructor
    · rw [onWSDisconnected_acts_of_proxy _ id p hp, countClose_teardown, if_pos rfl]
    · rw [onWSDisconnected_state_of_proxy _ id p hp]
      exact objGet_del_self _ _

/-- Witness for C2 at a concrete run: one client connects, then its
disconnect closes its session exactly once and empties its registry entry. -/
theorem c2_proxy_registry_invariant_witness :
    countClose
        (onWSDisconnected (runServer (initState testParams true)
          [Ev.connect]).1 0).2 0 = 1 ∧
    objGet (onWSDisconnected (runServer (initState testParams true)
        [Ev.connect]).1 0).1.bfxProxies 0 = none :=
  (c2_proxy_registry_invariant testParams [Ev.connect]).2.2.2 0
    (openBFXProxy 0) rfl

/-- Claim C3. For a registered client with a proxy session, the disconnect
handler performs, in program order: remove the client from the client
registry, then close the proxy session, then remove it from the proxy
registry — and afterwards both registries have no entry for that id. -/
theorem c3_disconnect_teardown_order (s : ServerState) (id : Nat)
    (p : BfxProxy) (hp : objGet s.bfxProxies id = some p) :
    (onWSDisconnected s id).2
        = [Act.unregisterClient id, Act.closeProxy id, Act.removeProxy id] ∧
    objGet (onWSDisconnected s id).1.wssClients id = none ∧
    objGet (onWSDisconnected s id).1.bfxProxies id = none := by
  refine ⟨onWSDisconnected_acts_of_proxy s id p hp, ?_, ?_⟩
  · rw [onWSDisconnected_state_of_proxy s id p hp]
    exact objGet_del_self _ _
  · rw [onWSDisconnected_state_of_proxy s id p hp]
    exact objGet_del_self _ _

/-- Witness for C3: the concrete disconnect of the one connected client. -/
theorem c3_disconnect_teardown_order_witness :
    (onWSDisconnected (runServer (initState testParams true) [Ev.connect]).1
        0).2
      = [Act.unregisterClient 0, Act.closeProxy 0, Act.removeProxy 0] ∧
    objGet (onWSDisconnected (runServer (initState testParams true)
        [Ev.connect]).1 0).1.wssClients 0 = none ∧
    objGet (onWSDisconnected (runServer (initState testParams true)
        [Ev.connect]).1 0).1.bfxProxies 0 = none :=
  c3_disconnect_teardown_order _ 0 (openBFXProxy 0) rfl

/-- Claim C4. On accept, given that every registered id is below the nonce
counter (true in every reachable state), the handler: generates a fresh
ClientID (new to the client registry), registers the connection under it,
registers an upstream proxy session for it exactly when proxying is enabled,
and the accepted connection has sent exactly one `connected` frame with no
payload — so that frame precedes any other frame to that client. -/
theorem c4_accept_registers_and_acks (s : ServerState) (ws : WsConn)
    (hC : (objKeys s.wssClients).all (fun k => decide (k < s.nonceCounter))
      = true)
    (hP : (objKeys s.bfxProxies).all (fun k => decide (k < s.nonceCounter))
      = true)
    (hsent : ws.sent = []) :
    (onWSConnected s ws).2.1 = s.nonceCounter ∧
    objGet s.wssClients (onWSConnected s ws).2.1 = none ∧
    objGet (onWSConnected s ws).1.wssClients (onWSConnected s ws).2.1
      = some (send ws [.str "connected"]) ∧
    (send ws [.str "connected"]).sent = [encodeEvent "connected" []] ∧
    (objGet (onWSConnected s ws).1.bfxProxies (onWSConnected s ws).2.1).isSome
      = s.bfxProxyEnabled := by
  have hid : (onWSConnected s ws).2.1 = s.nonceCounter := rfl
  have hnotmem : s.nonceCounter ∉ objKeys s.wssClients := by
    intro hm
    have := List.all_eq_true.mp hC _ hm
    simp at this
  refine ⟨rfl, ?_, ?_, ?_, ?_⟩
  · rw [hid]
    have hns : ¬ (objGet s.wssClients s.nonceCounter).isSome = true := by
      rw [isSome_objGet_iff_mem]
      exact hnotmem
    cases hg : objGet s.wssClients s.nonceCounter with
    | none => rfl
    | some v => rw [hg] at hns; simp at hns
  · rw [hid, onWSConnected_state]
    exact objGet_set_self _ _ _
  · simp [send, hsent, encodeEvent, jsonStringify]
  · rw [hid, onWSConnected_state]
    dsimp only
    cases hen : s.bfxProxyEnabled with
    | true =>
      rw [if_pos rfl, objGet_set_self]
      rfl
    | false =>
      rw [if_neg (by simp)]
      have hnotmemP : s.nonceCounter ∉ objKeys s.bfxProxies := by
        intro hm
        have := List.all_eq_true.mp hP _ hm
        simp at this
      have hns : ¬ (objGet s.bfxProxies s.nonceCounter).isSome = true := by
        rw [isSome_objGet_iff_mem]
        exact hnotmemP
      cases hg : objGet s.bfxProxies s.nonceCounter with
      | none => rfl
      | some v => rw [hg] at hns; simp at hns

/-- Witness for C4: a first connection accepted by a freshly constructed
server with proxying enabled. -/
theorem c4_accept_registers_and_acks_witness :
    (onWSConnected (initState testParams true) freshConn).2.1 = 0 ∧
    objGet (initState testParams true).wssClients 0 = none ∧
    objGet (onWSConnected (initState testParams true) freshConn).1.wssClients 0
      = some (send freshConn [.str "connected"]) ∧
    (send freshConn [.str "connected"]).sent = [encodeEvent "connected" []] ∧
    (objGet (onWSConnected (initState testParams true)
        freshConn).1.bfxProxies 0).isSome = true :=
  c4_accept_registers_and_acks (initState testParams true) freshConn rfl rfl rfl

/-- Counterexample to claim C5 as stated: the frame `["toString"]` has a first
element that is none of the seven registered command names, yet the server
does not take the logged unknown-command branch — the raw property access
finds the function inherited from `Object.prototype` and invokes it as a
command handler. -/
theorem c5_counterexample_toString_frame :
    "toString" ∉ COMMANDS ∧
    (onWSMessage (initState testParams true) 0
        (.frame (.arr [.str "toString"]))).2 = .handled "toString" ∧
    (onWSMessage (initState testParams true) 0
        (.frame (.arr [.str "toString"]))).2 ≠ .unknownLogged :=
  ⟨by decide, rfl, by decide⟩

/-- Claim C5 (amended): for every decoded inbound array frame whose first
element's property lookup on the command table — prototype chain included —
does not yield a function, the server logs "unknown command", sends no
outbound frame, does not throw, does not close the connection, and leaves
the client registry, the proxy registry and every client's state unchanged
(the resulting state is exactly the input state). -/
theorem c5_unknown_command_is_no_op (s : ServerState) (clientID : Nat)
    (elems : List Jv)
    (h : isFunctionProp (commandsGet (cmdKey elems.head?)) = false) :
    onWSMessage s clientID (.frame (.arr elems)) = (s, .unknownLogged) := by
  simp [onWSMessage, jsonParse, h]

/-- Witness for amended C5: the unrecognized command name "nope". -/
theorem c5_unknown_command_is_no_op_witness :
    onWSMessage (initState testParams true) 0 (.frame (.arr [.str "nope"]))
      = (initState testParams true, .unknownLogged) :=
  c5_unknown_command_is_no_op (initState testParams true) 0 [.str "nope"] rfl

/-- Claim C6. An inbound frame that is not syntactically valid JSON, or whose
decoded value is not an array, is logged and dropped: the handler returns
with the server state exactly unchanged (no outbound frame, no registry
mutation, no effect on any client, no closed connection) and no handler is
invoked. -/
theorem c6_decode_failure_is_no_op (s : ServerState) (clientID : Nat)
    (f : RawFrame) (h : ∀ elems : List Jv, jsonParse f ≠ some (.arr elems)) :
    onWSMessage s clientID f = (s, .decodeLogged) := by
  cases hf : jsonParse f with
  | none => simp [onWSMessage, hf]
  | some v =>
    cases v with
    | arr elems => exact absurd hf (h elems)
    | null => simp [onWSMessage, hf]
    | bool b => simp [onWSMessage, hf]
    | num n => simp [onWSMessage, hf]
    | str s => simp [onWSMessage, hf]
    | obj fs => simp [onWSMessage, hf]

/-- Witness for C6: a malformed text frame. -/
theorem c6_decode_failure_is_no_op_witness :
    onWSMessage (initState testParams true) 0 (.malformed "garbage")
      = (initState testParams true, .decodeLogged) :=
  c6_decode_failure_is_no_op (initState testParams true) 0
    (.malformed "garbage") (fun elems h => by simp [jsonParse] at h)

/-- Claim C7. On the upstream `open` event the proxy session initiates
authentication if and only if credentials are configured (both `apiKey` and
`apiSecret` present and non-empty, the source's truthiness test); without
credentials the listener is a no-op, yet the session is still created on
connect whenever proxying is enabled, and the message relay to a registered
open client works the same regardless of credentials. -/
theorem c7_auth_iff_credentials (params : BfxProxyParams) (p : BfxProxy)
    (s : ServerState) (ws : WsConn) :
    ((onBFXProxyOpenOnce params p).authCalls = p.authCalls + 1
      ↔ credentialsConfigured params) ∧
    (¬ credentialsConfigured params → onBFXProxyOpenOnce params p = p) ∧
    (s.bfxProxyEnabled = true →
      objGet (onWSConnected s ws).1.bfxProxies s.nonceCounter
        = some (openBFXProxy s.nonceCounter)) ∧
    (∀ clientID : Nat, ∀ msg : Jv, ∀ conn : WsConn,
      objGet s.wssClients clientID = some conn → conn.readyState = 1 →
      onBFXProxyMessage s clientID msg
        = .ok (updateClient s clientID
            (wsSendRaw conn (jsonStringify (.arr [.str "bfx", msg]))))) := by
  refine ⟨?_, ?_, ?_, ?_⟩
  · rw [← credentialsConfigured_iff]
    cases hb : truthyStr params.apiKey && truthyStr params.apiSecret with
    | true => simp [onBFXProxyOpenOnce, hb]
    | false => simp [onBFXProxyOpenOnce, hb]
  · intro hnc
    have hb : (truthyStr params.apiKey && truthyStr params.apiSecret) = false := by
      cases hb : truthyStr params.apiKey && truthyStr params.apiSecret with
      | true => exact absurd ((credentialsConfigured_iff params).mp hb) hnc
      | false => rfl
    simp [onBFXProxyOpenOnce, hb]
  · intro hen
    rw [onWSConnected_state]
    dsimp only
    rw [if_pos hen]
    exact objGet_set_self _ _ _
  · intro clientID msg conn hc hopen
    simp [onBFXProxyMessage, hc, hopen]

/-- Witness for C7: with credentials configured the open listener calls
`auth()` once; without them it is the identity; the session is registered on
connect; and the relay delivers a `bfx` frame to a registered open client. -/
theorem c7_auth_iff_credentials_witness :
    (onBFXProxyOpenOnce credParams (openBFXProxy 0)).authCalls
      = (openBFXProxy 0).authCalls + 1 ∧
    onBFXProxyOpenOnce testParams (openBFXProxy 0) = openBFXProxy 0 ∧
    objGet (onWSConnected (runServer (initState testParams true)
        [Ev.connect]).1 freshConn).1.bfxProxies
        (runServer (initState testParams true) [Ev.connect]).1.nonceCounter
      = some (openBFXProxy 1) ∧
    onBFXProxyMessage (runServer (initState testParams true) [Ev.connect]).1
        0 (.str "tick")
      = .ok (updateClient (runServer (initState testParams true)
            [Ev.connect]).1 0
          (wsSendRaw (send freshConn [.str "connected"])
            (jsonStringify (.arr [.str "bfx", .str "tick"])))) := by
  refine ⟨?_, ?_, ?_, ?_⟩
  · exact ((c7_auth_iff_credentials credParams (openBFXProxy 0)
      (initState credParams true) freshConn).1).mpr
      ⟨"key", "secret", rfl, by decide, rfl, by decide⟩
  · exact (c7_auth_iff_credentials testParams (openBFXProxy 0)
      (initState testParams true) freshConn).2.1
      (fun hc => by
        obtain ⟨k, c, hk, hk2, hc2, hc3⟩ := hc
        simp [testParams] at hk)
  · exact (c7_auth_iff_credentials testParams (openBFXProxy 0)
      (runServer (initState testParams true) [Ev.connect]).1 freshConn).2.2.1
      rfl
  · exact (c7_auth_iff_credentials testParams (openBFXProxy 0)
      (runServer (initState testParams true) [Ev.connect]).1 freshConn).2.2.2
      0 (.str "tick") (send freshConn [.str "connected"]) rfl rfl

/-- Claim C8. Encoding an event with tag `T` and payload `P` and then
decoding the resulting frame yields an ordered sequence whose first element
is `T` and whose remaining elements are exactly `P`. -/
theorem c8_encode_decode_roundtrip (tag : String) (payload : List Jv) :
    ∃ elems : List Jv,
      jsonParse (encodeEvent tag payload) = some (.arr elems) ∧
      elems.head? = some (.str tag) ∧ elems.tail = payload :=
  ⟨.str tag :: payload, rfl, rfl, rfl⟩

/-- Claim C9. `close()` closes only the listening socket: afterwards the
server is no longer listening, both registries and therefore every client
connection and proxy session are exactly as before, and the emitted action
trace contains no proxy close. -/
theorem c9_close_only_listening_socket (s : ServerState) :
    (close s).1.listening = false ∧
    (close s).1.wssClients = s.wssClients ∧
    (close s).1.bfxProxies = s.bfxProxies ∧
    (close s).1.nonceCounter = s.nonceCounter ∧
    (close s).1.bfxProxyEnabled = s.bfxProxyEnabled ∧
    (close s).2 = [Act.closeListeningSocket] ∧
    (∀ sid : Nat, countClose (close s).2 sid = 0) :=
  ⟨rfl, rfl, rfl, rfl, rfl, rfl, fun sid => rfl⟩

/-- Claim C10. The handler lookup `COMMANDS[cmd]` is a raw property access on
a plain object: the string "toString" — not one of the seven registered
command names — resolves through the prototype chain to a function and is
invoked as a command handler, and the one-element array `["bfx"]` coerces to
the property key "bfx" and invokes the bfx handler; neither takes the
unknown-command branch. -/
theorem c10_raw_property_lookup_invokes_inherited :
    "toString" ∉ COMMANDS ∧
    commandsGet "toString" = .inheritedFn "toString" ∧
    isFunctionProp (commandsGet "toString") = true ∧
    (onWSMessage (initState testParams true) 7
        (.frame (.arr [.str "toString", .num 1]))).2 = .handled "toString" ∧
    cmdKey (some (.arr [.str "bfx"])) = "bfx" ∧
    commandsGet "bfx" = .handlerFn "bfx" ∧
    (onWSMessage (initState testParams true) 7
        (.frame (.arr [.arr [.str "bfx"]]))).2 = .handled "bfx" :=
  ⟨by decide, rfl, rfl, rfl, rfl, rfl, rfl⟩

end DataServer
